import Mathlib

/-!
Verification of the AddeparRecon job-orchestration core (`src/main.py`).

The development shallowly embeds the orchestration state machine of
`process_all_jobs` together with the leaf operations it dispatches to
(`post_addepar_job`, `check_addepar_job_status`, `download_addepar_job`,
`exec_import_proc`, `update_job_status_db`, `create_auth_string`, and the
artifact-path construction). External effects (HTTP calls, stored
procedures, file writes, the wall clock) are supplied by an explicit
environment of oracles; Python exceptions that escape a handler are
modelled with `Except`. Logging is abstracted: only the error-level log
events emitted by `process_all_jobs` itself are tracked (as constructors of
`ErrLog`); informational log lines and the log text of leaf functions are
dropped, since no property depends on them.
-/

namespace AddeparRecon

/-- A Python exception class relevant to the embedded code: `KeyError` is
caught by the leaf functions, `TypeError` (raised when subscripting a
non-dict with a string key, or ordering a non-number) is not caught
anywhere in `src/main.py`. -/
inductive PyErr where
  | typeError
  | keyError
deriving DecidableEq

/-- A parsed JSON value, as produced by Python's `json.loads`.
Numbers are modelled as rationals (only order/equality comparisons are
performed on them in the source, never arithmetic). -/
inductive Json where
  | null
  | bool (b : Bool)
  | num (q : ℚ)
  | str (s : String)
  | arr (elems : List Json)
  | obj (fields : List (String × Json))

/-- Python subscript `j[k]` with a string key: succeeds on a dict that has
the key, raises `KeyError` on a dict without it, and raises `TypeError` on
any non-dict value. -/
def getItem (j : Json) (k : String) : Except PyErr Json :=
  match j with
  | .obj fields =>
    match fields.lookup k with
    | some v => .ok v
    | none => .error .keyError
  | _ => .error .typeError

/-- Outcome of one HTTP request made through `requests.request`:
either a raised `requests.exceptions.RequestException` (`exn`), or a
response carrying a status code, the UTF-8-decoded body text, and the
result of attempting to parse that text as JSON (`none` when `json.loads`
would raise `JSONDecodeError`). -/
inductive HttpOutcome where
  | exn
  | response (statusCode : Nat) (bodyText : String) (parsed : Option Json)

/-- Result row of the `Addepar.usp_UpdateJobQueueStatus` stored procedure:
a SQL error (caught as `pymssql.Error`) or a returned flag value. -/
inductive DbRowOutcome where
  | sqlError
  | row (v : Int)

/-- Modelled from the spec: the staging-import and target-merge stored
procedures (`runStagingImport` / `runTargetMerge`, SQL code not under
`src/`) return a row count `≥ 0` on success or fail; a failure is caught
by `exec_import_proc` as `pymssql.Error`. -/
inductive ImportProcOutcome where
  | sqlError
  | rows (n : Nat)

/-- `os.path.join(p, '')`: appends the path separator when `p` is nonempty
and its last character is not already the separator. -/
def joinDirSep (p : String) : String :=
  if p = "" then "" else if p.data.getLast? = some '/' then p else p ++ "/"

/-- The save path `post_addepar_job` builds for the raw POST response
(`src/main.py` lines 74-75): directory, fixed prefix, timestamp. -/
def postResponseSavePath (dir : String) (now : String) : String :=
  joinDirSep dir ++ "AddeparPostResponse_" ++ now ++ ".txt"

/-- The save path `process_all_jobs` builds for the downloaded job payload
(`src/main.py` line 442): `f'data/{job_name}_{job_date}.json'`. -/
def dataSavePath (jobName : String) (jobDate : String) : String :=
  "data/" ++ jobName ++ "_" ++ jobDate ++ ".json"

/-- `post_addepar_job` (`src/main.py` lines 38-112). Returns the Addepar
job id extracted from `response['data']['id']` (an arbitrary JSON value),
or `none` where the Python code returns `None`: transport error, non-202
status code, JSON parse failure, or `KeyError` on the lookups. A
`TypeError` raised by subscripting a non-dict propagates. The optional
response save is performed for any received response; its success is
ignored. -/
def postAddeparJob (outcome : HttpOutcome) (responseSavePath : String)
    (writeFileOk : String → Bool) (now : String) : Except PyErr (Option Json) :=
  match outcome with
  | .exn => .ok none
  | .response code _ parsed =>
    let _saved :=
      if responseSavePath ≠ "" then writeFileOk (postResponseSavePath responseSavePath now) else true
    if code ≠ 202 then .ok none
    else
      match parsed with
      | none => .ok none
      | some j =>
        match getItem j "data" with
        | .error .typeError => .error .typeError
        | .error .keyError => .ok none
        | .ok d =>
          match getItem d "id" with
          | .error .typeError => .error .typeError
          | .error .keyError => .ok none
          | .ok v => .ok (some v)

/-- `check_addepar_job_status` (`src/main.py` lines 115-187). Returns the
JSON value at `response['data']['attributes']['percent_complete']`, or
`none` where the Python code returns `None`: transport error, a status
code other than 200/303, JSON parse failure, or `KeyError`. `TypeError`
propagates. -/
def checkAddeparJobStatus (outcome : HttpOutcome) : Except PyErr (Option Json) :=
  match outcome with
  | .exn => .ok none
  | .response code _ parsed =>
    if code = 200 ∨ code = 303 then
      match parsed with
      | none => .ok none
      | some j =>
        match (do
            let d ← getItem j "data"
            let a ← getItem d "attributes"
            getItem a "percent_complete" : Except PyErr Json) with
        | .ok v => .ok (some v)
        | .error .keyError => .ok none
        | .error .typeError => .error .typeError
    else .ok none

/-- `download_addepar_job` (`src/main.py` lines 190-243): true iff the GET
request returned status 200 and the payload was successfully written to
`savePath` by `api_response_to_file`. -/
def downloadAddeparJob (outcome : HttpOutcome) (savePath : String)
    (writeFileOk : String → Bool) : Bool :=
  match outcome with
  | .exn => false
  | .response code _ _ => if code ≠ 200 then false else writeFileOk savePath

/-- `update_job_status_db` (`src/main.py` lines 246-302): false on a SQL
error, otherwise true iff the procedure's returned flag equals 1. -/
def updateJobStatusDb (o : DbRowOutcome) : Bool :=
  match o with
  | .sqlError => false
  | .row v => v == 1

/-- `exec_import_proc` (`src/main.py` lines 333-366): `-1` on a SQL error,
otherwise the row count returned by the procedure. -/
def execImportProc (o : ImportProcOutcome) : Int :=
  match o with
  | .sqlError => -1
  | .rows n => (n : Int)

/-- Python `v >= 0` for a JSON value: numbers compare numerically, bools
compare as 0/1 (so both compare `≥ 0`), every other type raises
`TypeError`. -/
def pyGe0 : Json → Except PyErr Bool
  | .num q => .ok (decide (0 ≤ q))
  | .bool _ => .ok true
  | _ => .error .typeError

/-- Python `v < 1` for a JSON value (only evaluated after `v >= 0`
succeeded, so only numbers and bools occur). -/
def pyLt1 : Json → Except PyErr Bool
  | .num q => .ok (decide (q < 1))
  | .bool b => .ok (!b)
  | _ => .error .typeError

/-- Python `v >= 0 and v < 1` with short-circuit evaluation. -/
def pyInRange01 (v : Json) : Except PyErr Bool := do
  let a ← pyGe0 v
  if a then pyLt1 v else pure false

/-- Python `v == 1`: never raises; true for the number 1 and for `True`,
false for everything else. -/
def pyEq1 : Json → Bool
  | .num q => decide (q = 1)
  | .bool b => b
  | _ => false

/-- One record returned by `Addepar.usp_GetOpenJobs`, as unpacked at
`src/main.py` lines 398-402. -/
structure Job where
  id : Int
  jobName : String
  asOfDate : String
  statusName : String
  queryParameters : String

/-- Error-level log events emitted by `process_all_jobs` itself
(the interpolated message text is abstracted to the constructor). -/
inductive ErrLog where
  | percentOutOfRange (v : Json)
  | downloadError (jobName : String) (id : Int)
  | importError (jobName : String) (id : Int)
  | targetInsertError (jobName : String) (id : Int)
  | unmatchedStatus (statusName : String)

/-- One invocation of `update_job_status_db` requested by
`process_all_jobs`: the database job id, the status name written, and the
job-details value written (the Python value passed, before SQL string
interpolation). -/
structure Write where
  jobId : Int
  toStatus : String
  detail : Json

/-- Everything observable about processing one record (or a whole batch):
the transition writes requested, the rerun flag, and the error-level log
events. -/
structure JobResult where
  writes : List Write
  rerun : Bool
  errLogs : List ErrLog

/-- The environment of external collaborators: per-job outcomes of the
three HTTP calls, of the import/post-import procedures and of the
status-update procedure, the success of file writes by path, and the
timestamp `datetime.now().strftime(...)` would render. -/
structure Env where
  postOutcome : Job → HttpOutcome
  pollOutcome : Job → HttpOutcome
  downloadOutcome : Job → HttpOutcome
  importProcOutcome : Job → ImportProcOutcome
  updateOutcome : Job → String → Json → DbRowOutcome
  writeFileOk : String → Bool
  now : String

/-- Detail string written to `Error` by the `Queued` stage
(`src/main.py` line 422). -/
def postFailureDetail : String := "Failure posting job to Addepar - see logs for details."

/-- Detail string written to `Error` when the status query fails
(`src/main.py` line 433). -/
def checkFailureDetail : String := "Failure downloading API data from Addepar - see logs for details."

/-- Detail string written to `Error` when the download fails
(`src/main.py` line 454). -/
def downloadFailureDetail : String := "Error downloading API data from Addepar - see logs for details."

/-- Detail string written to `Error` when the staging import fails
(`src/main.py` line 470). -/
def importFailureDetail : String := "Failure importing data into dbimport table - see logs for details."

/-- Detail string written to `Error` when the target merge fails
(`src/main.py` line 489). -/
def targetFailureDetail : String := "Failure inserting data into target table - see logs for details."

/-- The `'Queued'` arm of `process_all_jobs` (`src/main.py` lines
413-424). The result of `update_job_status_db` is computed and discarded,
exactly as in the source. -/
def handleQueued (env : Env) (job : Job) : Except PyErr JobResult :=
  match postAddeparJob (env.postOutcome job) "logs/" env.writeFileOk env.now with
  | .error e => .error e
  | .ok none =>
    let _ok := updateJobStatusDb (env.updateOutcome job "Error" (.str postFailureDetail))
    .ok ⟨[⟨job.id, "Error", .str postFailureDetail⟩], false, []⟩
  | .ok (some addeparJobId) =>
    let _ok := updateJobStatusDb (env.updateOutcome job "Posted" addeparJobId)
    .ok ⟨[⟨job.id, "Posted", addeparJobId⟩], false, []⟩

/-- The `'Posted'` arm of `process_all_jobs` (`src/main.py` lines
426-459): `None` result → Error transition; `0 ≤ pct < 1` → no action;
`pct == 1` → download, then Downloaded on success / Error on failure;
anything else → error log only, no transition. -/
def handlePosted (env : Env) (job : Job) : Except PyErr JobResult :=
  match checkAddeparJobStatus (env.pollOutcome job) with
  | .error e => .error e
  | .ok none =>
    let _ok := updateJobStatusDb (env.updateOutcome job "Error" (.str checkFailureDetail))
    .ok ⟨[⟨job.id, "Error", .str checkFailureDetail⟩], false, []⟩
  | .ok (some v) =>
    match pyInRange01 v with
    | .error e => .error e
    | .ok true => .ok ⟨[], false, []⟩
    | .ok false =>
      if pyEq1 v then
        let path := dataSavePath job.jobName job.asOfDate
        if downloadAddeparJob (env.downloadOutcome job) path env.writeFileOk then
          let _ok := updateJobStatusDb (env.updateOutcome job "Downloaded" (.str path))
          .ok ⟨[⟨job.id, "Downloaded", .str path⟩], true, []⟩
        else
          let _ok := updateJobStatusDb (env.updateOutcome job "Error" (.str downloadFailureDetail))
          .ok ⟨[⟨job.id, "Error", .str downloadFailureDetail⟩], false,
            [.downloadError job.jobName job.id]⟩
      else
        .ok ⟨[], false, [.percentOutOfRange v]⟩

/-- The `'Downloaded'` arm of `process_all_jobs` (`src/main.py` lines
461-478). The source has two consecutive `if` statements with guards
`rows_inserted == -1` and `rows_inserted >= 0`; over the integers these
are mutually exclusive for the values `exec_import_proc` produces, so the
chain below is equivalent. -/
def handleDownloaded (env : Env) (job : Job) : Except PyErr JobResult :=
  let rowsInserted := execImportProc (env.importProcOutcome job)
  if rowsInserted = -1 then
    let _ok := updateJobStatusDb (env.updateOutcome job "Error" (.str importFailureDetail))
    .ok ⟨[⟨job.id, "Error", .str importFailureDetail⟩], false,
      [.importError job.jobName job.id]⟩
  else if 0 ≤ rowsInserted then
    let _ok := updateJobStatusDb (env.updateOutcome job "Imported" (.num (rowsInserted : ℚ)))
    .ok ⟨[⟨job.id, "Imported", .num (rowsInserted : ℚ)⟩], true, []⟩
  else .ok ⟨[], false, []⟩

/-- The `'Imported'` arm of `process_all_jobs` (`src/main.py` lines
480-493), structured like the `'Downloaded'` arm but transitioning to
`Completed` and leaving the rerun flag false. -/
def handleImported (env : Env) (job : Job) : Except PyErr JobResult :=
  let rowsInserted := execImportProc (env.importProcOutcome job)
  if rowsInserted = -1 then
    let _ok := updateJobStatusDb (env.updateOutcome job "Error" (.str targetFailureDetail))
    .ok ⟨[⟨job.id, "Error", .str targetFailureDetail⟩], false,
      [.targetInsertError job.jobName job.id]⟩
  else if 0 ≤ rowsInserted then
    let _ok := updateJobStatusDb (env.updateOutcome job "Completed" (.num (rowsInserted : ℚ)))
    .ok ⟨[⟨job.id, "Completed", .num (rowsInserted : ℚ)⟩], false, []⟩
  else .ok ⟨[], false, []⟩

/-- Processing of a single record inside the loop of `process_all_jobs`
(`src/main.py` lines 412-499): Python's `match` on the status string is a
sequence of equality tests with a default arm that only logs. -/
def processJob (env : Env) (job : Job) : Except PyErr JobResult :=
  if job.statusName = "Queued" then handleQueued env job
  else if job.statusName = "Posted" then handlePosted env job
  else if job.statusName = "Downloaded" then handleDownloaded env job
  else if job.statusName = "Imported" then handleImported env job
  else .ok ⟨[], false, [.unmatchedStatus job.statusName]⟩

/-- `process_all_jobs` (`src/main.py` lines 369-506): process the records
in order, OR the per-record rerun flags into the batch flag. An uncaught
Python exception raised while processing any record propagates out of the
loop, abandoning the remaining records. -/
def processAllJobs (env : Env) (jobs : List Job) : Except PyErr JobResult :=
  match jobs with
  | [] => .ok ⟨[], false, []⟩
  | job :: rest =>
    match processJob env job with
    | .error e => .error e
    | .ok r =>
      match processAllJobs env rest with
      | .error e => .error e
      | .ok rs => .ok ⟨r.writes ++ rs.writes, r.rerun || rs.rerun, r.errLogs ++ rs.errLogs⟩

/-- The successor of a status in the pipeline chain
Queued → Posted → Downloaded → Imported → Completed. -/
def statusSucc : String → Option String
  | "Queued" => some "Posted"
  | "Posted" => some "Downloaded"
  | "Downloaded" => some "Imported"
  | "Imported" => some "Completed"
  | _ => none

/-- Exhaustive outcome analysis of the submit handler. -/
theorem handleQueued_cases (env : Env) (job : Job) :
    (∃ e, postAddeparJob (env.postOutcome job) "logs/" env.writeFileOk env.now = .error e ∧
      handleQueued env job = .error e) ∨
    (postAddeparJob (env.postOutcome job) "logs/" env.writeFileOk env.now = .ok none ∧
      handleQueued env job =
        .ok ⟨[⟨job.id, "Error", .str postFailureDetail⟩], false, []⟩) ∨
    (∃ v, postAddeparJob (env.postOutcome job) "logs/" env.writeFileOk env.now = .ok (some v) ∧
      handleQueued env job = .ok ⟨[⟨job.id, "Posted", v⟩], false, []⟩) := by
  rcases hp : postAddeparJob (env.postOutcome job) "logs/" env.writeFileOk env.now with e | (_ | v)
  · exact .inl ⟨e, rfl, by simp [handleQueued, hp]⟩
  · exact .inr (.inl ⟨rfl, by simp [handleQueued, hp]⟩)
  · exact .inr (.inr ⟨v, rfl, by simp [handleQueued, hp]⟩)

/-- Exhaustive outcome analysis of the poll handler. -/
theorem handlePosted_cases (env : Env) (job : Job) :
    (∃ e, handlePosted env job = .error e) ∨
    (checkAddeparJobStatus (env.pollOutcome job) = .ok none ∧
      handlePosted env job =
        .ok ⟨[⟨job.id, "Error", .str checkFailureDetail⟩], false, []⟩) ∨
    (∃ v, checkAddeparJobStatus (env.pollOutcome job) = .ok (some v) ∧
      pyInRange01 v = .ok true ∧
      handlePosted env job = .ok ⟨[], false, []⟩) ∨
    (∃ v, checkAddeparJobStatus (env.pollOutcome job) = .ok (some v) ∧
      pyInRange01 v = .ok false ∧ pyEq1 v = true ∧
      downloadAddeparJob (env.downloadOutcome job)
        (dataSavePath job.jobName job.asOfDate) env.writeFileOk = true ∧
      handlePosted env job =
        .ok ⟨[⟨job.id, "Downloaded", .str (dataSavePath job.jobName job.asOfDate)⟩], true, []⟩) ∨
    (∃ v, checkAddeparJobStatus (env.pollOutcome job) = .ok (some v) ∧
      pyInRange01 v = .ok false ∧ pyEq1 v = true ∧
      downloadAddeparJob (env.downloadOutcome job)
        (dataSavePath job.jobName job.asOfDate) env.writeFileOk = false ∧
      handlePosted env job =
        .ok ⟨[⟨job.id, "Error", .str downloadFailureDetail⟩], false,
          [.downloadError job.jobName job.id]⟩) ∨
    (∃ v, checkAddeparJobStatus (env.pollOutcome job) = .ok (some v) ∧
      pyInRange01 v = .ok false ∧ pyEq1 v = false ∧
      handlePosted env job = .ok ⟨[], false, [.percentOutOfRange v]⟩) := by
  rcases hc : checkAddeparJobStatus (env.pollOutcome job) with e | (_ | v)
  · exact .inl ⟨e, by simp [handlePosted, hc]⟩
  · exact .inr (.inl ⟨rfl, by simp [handlePosted, hc]⟩)
  · rcases hr : pyInRange01 v with e | b
    · exact .inl ⟨e, by simp [handlePosted, hc, hr]⟩
    · cases b
      · rcases he : pyEq1 v with _ | _
        · exact .inr (.inr (.inr (.inr (.inr
            ⟨v, rfl, hr, by simp [he], by simp [handlePosted, hc, hr, he]⟩))))
        · rcases hd : downloadAddeparJob (env.downloadOutcome job)
              (dataSavePath job.jobName job.asOfDate) env.writeFileOk with _ | _
          · exact .inr (.inr (.inr (.inr (.inl
              ⟨v, rfl, hr, by simp [he], by simp [hd], by simp [handlePosted, hc, hr, he, hd]⟩))))
          · exact .inr (.inr (.inr (.inl
              ⟨v, rfl, hr, by simp [he], by simp [hd], by simp [handlePosted, hc, hr, he, hd]⟩)))
      · exact .inr (.inr (.inl ⟨v, rfl, hr, by simp [handlePosted, hc, hr]⟩))

/-- Exhaustive outcome analysis of the import handler (it is total: no
exception can escape it). -/
theorem handleDownloaded_cases (env : Env) (job : Job) :
    (env.importProcOutcome job = .sqlError ∧
      handleDownloaded env job =
        .ok ⟨[⟨job.id, "Error", .str importFailureDetail⟩], false,
          [.importError job.jobName job.id]⟩) ∨
    (∃ n : ℕ, env.importProcOutcome job = .rows n ∧
      handleDownloaded env job =
        .ok ⟨[⟨job.id, "Imported", .num (n : ℚ)⟩], true, []⟩) := by
  rcases hi : env.importProcOutcome job with _ | n
  · exact .inl ⟨rfl, by simp [handleDownloaded, hi, execImportProc]⟩
  · refine .inr ⟨n, rfl, ?_⟩
    have h1 : ¬((n : ℤ) = -1) := by omega
    simp [handleDownloaded, hi, execImportProc, h1]

/-- Exhaustive outcome analysis of the post-import handler (total). -/
theorem handleImported_cases (env : Env) (job : Job) :
    (env.importProcOutcome job = .sqlError ∧
      handleImported env job =
        .ok ⟨[⟨job.id, "Error", .str targetFailureDetail⟩], false,
          [.targetInsertError job.jobName job.id]⟩) ∨
    (∃ n : ℕ, env.importProcOutcome job = .rows n ∧
      handleImported env job =
        .ok ⟨[⟨job.id, "Completed", .num (n : ℚ)⟩], false, []⟩) := by
  rcases hi : env.importProcOutcome job with _ | n
  · exact .inl ⟨rfl, by simp [handleImported, hi, execImportProc]⟩
  · refine .inr ⟨n, rfl, ?_⟩
    have h1 : ¬((n : ℤ) = -1) := by omega
    simp [handleImported, hi, execImportProc, h1]

/-- Records whose status has no matching handler arm fall through to the
default arm: an error log and nothing else. -/
theorem processJob_unmatched (env : Env) (job : Job)
    (h1 : job.statusName ≠ "Queued") (h2 : job.statusName ≠ "Posted")
    (h3 : job.statusName ≠ "Downloaded") (h4 : job.statusName ≠ "Imported") :
    processJob env job = .ok ⟨[], false, [.unmatchedStatus job.statusName]⟩ := by
  simp [processJob, h1, h2, h3, h4]

theorem processJob_queued (env : Env) (job : Job) (hq : job.statusName = "Queued") :
    processJob env job = handleQueued env job := by
  simp [processJob, hq]

theorem processJob_posted (env : Env) (job : Job) (hq : job.statusName = "Posted") :
    processJob env job = handlePosted env job := by
  simp [processJob, hq]

theorem processJob_downloaded (env : Env) (job : Job) (hq : job.statusName = "Downloaded") :
    processJob env job = handleDownloaded env job := by
  simp [processJob, hq]

theorem processJob_imported (env : Env) (job : Job) (hq : job.statusName = "Imported") :
    processJob env job = handleImported env job := by
  simp [processJob, hq]

/-- Every transition write a record's processing requests targets that
record's own database id, and writes either `Error` or the single
successor of the record's current status. -/
theorem processJob_write_shape (env : Env) (job : Job) (r : JobResult)
    (h : processJob env job = .ok r) :
    ∀ w ∈ r.writes, w.jobId = job.id ∧
      (w.toStatus = "Error" ∨ statusSucc job.statusName = some w.toStatus) := by
  by_cases hq : job.statusName = "Queued"
  · rw [processJob_queued env job hq] at h
    rcases handleQueued_cases env job with ⟨e, _, he⟩ | ⟨_, he⟩ | ⟨v, _, he⟩ <;>
      rw [he] at h
    · cases h
    · injection h with h; subst h; simp [statusSucc, hq]
    · injection h with h; subst h; simp [statusSucc, hq]
  by_cases hp : job.statusName = "Posted"
  · rw [processJob_posted env job hp] at h
    rcases handlePosted_cases env job with ⟨e, he⟩ | ⟨_, he⟩ | ⟨v, _, _, he⟩ |
        ⟨v, _, _, _, _, he⟩ | ⟨v, _, _, _, _, he⟩ | ⟨v, _, _, _, he⟩ <;>
      rw [he] at h
    · cases h
    all_goals (injection h with h; subst h; simp [statusSucc, hp])
  by_cases hd : job.statusName = "Downloaded"
  · rw [processJob_downloaded env job hd] at h
    rcases handleDownloaded_cases env job with ⟨_, he⟩ | ⟨n, _, he⟩ <;> rw [he] at h <;>
      (injection h with h; subst h; simp [statusSucc, hd])
  by_cases hi : job.statusName = "Imported"
  · rw [processJob_imported env job hi] at h
    rcases handleImported_cases env job with ⟨_, he⟩ | ⟨n, _, he⟩ <;> rw [he] at h <;>
      (injection h with h; subst h; simp [statusSucc, hi])
  rw [processJob_unmatched env job hq hp hd hi] at h
  injection h with h; subst h; simp

/-- A record whose status is `Error` (or any other unhandled string)
contributes no transition writes. -/
theorem processJob_unhandled_no_writes (env : Env) (job : Job) (r : JobResult)
    (h1 : job.statusName ≠ "Queued") (h2 : job.statusName ≠ "Posted")
    (h3 : job.statusName ≠ "Downloaded") (h4 : job.statusName ≠ "Imported")
    (h : processJob env job = .ok r) : r.writes = [] := by
  rw [processJob_unmatched env job h1 h2 h3 h4] at h
  injection h with h; subst h; rfl

/-- Batch processing of the empty list. -/
theorem processAllJobs_nil (env : Env) : processAllJobs env [] = .ok ⟨[], false, []⟩ := rfl

/-- Successful batch processing of `job :: rest` decomposes into the
record's own result and the batch result of the remaining records. -/
theorem processAllJobs_cons_ok (env : Env) (job : Job) (rest : List Job) (r : JobResult)
    (h : processAllJobs env (job :: rest) = .ok r) :
    ∃ rj rs, processJob env job = .ok rj ∧ processAllJobs env rest = .ok rs ∧
      r = ⟨rj.writes ++ rs.writes, rj.rerun || rs.rerun, rj.errLogs ++ rs.errLogs⟩ := by
  rw [processAllJobs] at h
  rcases hj : processJob env job with e | rj <;> rw [hj] at h
  · cases h
  rcases hrest : processAllJobs env rest with e | rs <;> rw [hrest] at h
  · cases h
  injection h with h
  exact ⟨rj, rs, rfl, rfl, h.symm⟩

/-- C1 (claim theorem): in a successful handler invocation every status
transition goes to `Error` or to the single successor in
Queued→Posted→Downloaded→Imported→Completed (never backward, never
skipping); a handled record other than a still-pending or
contract-violating `Posted` one always performs exactly one transition,
and a `Posted` record that performs none is in the not-yet-complete branch
(`0 ≤ fraction < 1`) or the out-of-range contract-violation branch. -/
theorem forward_only_transitions (env : Env) (job : Job) (r : JobResult)
    (h : processJob env job = .ok r) :
    (∀ w ∈ r.writes, w.jobId = job.id ∧
      (w.toStatus = "Error" ∨ statusSucc job.statusName = some w.toStatus)) ∧
    ((job.statusName = "Queued" ∨ job.statusName = "Downloaded" ∨
        job.statusName = "Imported") → ∃ w, r.writes = [w]) ∧
    (job.statusName = "Posted" → r.writes = [] →
      ∃ v, checkAddeparJobStatus (env.pollOutcome job) = .ok (some v) ∧
        (pyInRange01 v = .ok true ∨ (pyInRange01 v = .ok false ∧ pyEq1 v = false))) := by
  refine ⟨processJob_write_shape env job r h, ?_, ?_⟩
  · rintro (hs | hs | hs)
    · rw [processJob_queued env job hs] at h
      rcases handleQueued_cases env job with ⟨e, _, he⟩ | ⟨_, he⟩ | ⟨v, _, he⟩ <;>
        rw [he] at h
      · cases h
      · injection h with h; subst h; exact ⟨_, rfl⟩
      · injection h with h; subst h; exact ⟨_, rfl⟩
    · rw [processJob_downloaded env job hs] at h
      rcases handleDownloaded_cases env job with ⟨_, he⟩ | ⟨n, _, he⟩ <;> rw [he] at h <;>
        (injection h with h; subst h; exact ⟨_, rfl⟩)
    · rw [processJob_imported env job hs] at h
      rcases handleImported_cases env job with ⟨_, he⟩ | ⟨n, _, he⟩ <;> rw [he] at h <;>
        (injection h with h; subst h; exact ⟨_, rfl⟩)
  · intro hs hw
    rw [processJob_posted env job hs] at h
    rcases handlePosted_cases env job with ⟨e, he⟩ | ⟨hc, he⟩ | ⟨v, hc, hr, he⟩ |
        ⟨v, hc, hr, hone, _, he⟩ | ⟨v, hc, hr, hone, _, he⟩ | ⟨v, hc, hr, hone, he⟩ <;>
      rw [he] at h
    · cases h
    · injection h with h; subst h; cases hw
    · exact ⟨v, hc, .inl hr⟩
    · injection h with h; subst h; cases hw
    · injection h with h; subst h; cases hw
    · exact ⟨v, hc, .inr ⟨hr, hone⟩⟩

/-- C4 (claim theorem): a handler invocation reports the record as
immediately rerunnable exactly when the status it wrote is `Downloaded` or
`Imported`; submits, pending polls, all `Error` outcomes, and the
`Completed` outcome report false. -/
theorem rerunnable_iff_downloaded_or_imported (env : Env) (job : Job) (r : JobResult)
    (h : processJob env job = .ok r) :
    (r.rerun = true ↔ ∃ w ∈ r.writes, w.toStatus = "Downloaded" ∨ w.toStatus = "Imported") := by
  by_cases hq : job.statusName = "Queued"
  · rw [processJob_queued env job hq] at h
    rcases handleQueued_cases env job with ⟨e, _, he⟩ | ⟨_, he⟩ | ⟨v, _, he⟩ <;>
      rw [he] at h
    · cases h
    all_goals (injection h with h; subst h; simp)
  by_cases hp : job.statusName = "Posted"
  · rw [processJob_posted env job hp] at h
    rcases handlePosted_cases env job with ⟨e, he⟩ | ⟨_, he⟩ | ⟨v, _, _, he⟩ |
        ⟨v, _, _, _, _, he⟩ | ⟨v, _, _, _, _, he⟩ | ⟨v, _, _, _, he⟩ <;>
      rw [he] at h
    · cases h
    all_goals (injection h with h; subst h; simp)
  by_cases hd : job.statusName = "Downloaded"
  · rw [processJob_downloaded env job hd] at h
    rcases handleDownloaded_cases env job with ⟨_, he⟩ | ⟨n, _, he⟩ <;> rw [he] at h <;>
      (injection h with h; subst h; simp)
  by_cases hi : job.statusName = "Imported"
  · rw [processJob_imported env job hi] at h
    rcases handleImported_cases env job with ⟨_, he⟩ | ⟨n, _, he⟩ <;> rw [he] at h <;>
      (injection h with h; subst h; simp)
  rw [processJob_unmatched env job hq hp hd hi] at h
  injection h with h; subst h; simp

/-- C2 (claim theorem): a successful batch pass returns rerun = true
exactly when at least one of its records' processing reported the
rerunnable flag; in particular the empty batch returns false. -/
theorem batch_rerun_iff_some_rerunnable (env : Env) (jobs : List Job) (r : JobResult)
    (h : processAllJobs env jobs = .ok r) :
    (r.rerun = true ↔ ∃ j ∈ jobs, ∃ rj, processJob env j = .ok rj ∧ rj.rerun = true) := by
  induction jobs generalizing r with
  | nil =>
    rw [processAllJobs_nil] at h
    injection h with h; subst h; simp
  | cons job rest ih =>
    obtain ⟨rj, rs, hj, hrest, rfl⟩ := processAllJobs_cons_ok env job rest r h
    have hiff := ih rs hrest
    simp only [Bool.or_eq_true, hiff]
    constructor
    · rintro (h1 | ⟨j, hm, rj', h', hr'⟩)
      · exact ⟨job, List.mem_cons_self job rest, rj, hj, h1⟩
      · exact ⟨j, List.mem_cons_of_mem job hm, rj', h', hr'⟩
    · rintro ⟨j, hm, rj', h', hr'⟩
      rcases List.mem_cons.mp hm with rfl | hm'
      · rw [hj] at h'; injection h' with h'; subst h'; exact .inl hr'
      · exact .inr ⟨j, hm', rj', h', hr'⟩

theorem processJob_update_indep (p s d : Job → HttpOutcome) (i : Job → ImportProcOutcome)
    (w : String → Bool) (n : String) (u₁ u₂ : Job → String → Json → DbRowOutcome) (job : Job) :
    processJob ⟨p, s, d, i, u₁, w, n⟩ job = processJob ⟨p, s, d, i, u₂, w, n⟩ job := by
  by_cases hq : job.statusName = "Queued"
  · rw [processJob_queued _ job hq, processJob_queued _ job hq]
    rcases hp : postAddeparJob (p job) "logs/" w n with e | o
    · simp [handleQueued, hp]
    · rcases o with _ | v <;> simp [handleQueued, hp]
  by_cases hp2 : job.statusName = "Posted"
  · rw [processJob_posted _ job hp2, processJob_posted _ job hp2]
    rcases hc : checkAddeparJobStatus (s job) with e | o
    · simp [handlePosted, hc]
    rcases o with _ | v
    · simp [handlePosted, hc]
    rcases hr : pyInRange01 v with e | b
    · simp [handlePosted, hc, hr]
    cases b
    · rcases he : pyEq1 v with _ | _
      · simp [handlePosted, hc, hr, he]
      · rcases hdl : downloadAddeparJob (d job) (dataSavePath job.jobName job.asOfDate) w
            with _ | _ <;>
          simp [handlePosted, hc, hr, he, hdl]
    · simp [handlePosted, hc, hr]
  by_cases hd : job.statusName = "Downloaded"
  · rw [processJob_downloaded _ job hd, processJob_downloaded _ job hd]
    rcases hi : i job with _ | m <;> simp [handleDownloaded, hi, execImportProc]
  by_cases hi2 : job.statusName = "Imported"
  · rw [processJob_imported _ job hi2, processJob_imported _ job hi2]
    rcases hi : i job with _ | m <;> simp [handleImported, hi, execImportProc]
  rw [processJob_unmatched _ job hq hp2 hd hi2, processJob_unmatched _ job hq hp2 hd hi2]

/-- C10 (claim theorem): the entire observable batch result — crash
behavior, every attempted transition write, the rerun flag, and the log
events — is unchanged when the success/failure results returned by the
transition-write procedure (`update_job_status_db`) are replaced
arbitrarily: the orchestrator never inspects them. -/
theorem batch_independent_of_transition_write_results (env : Env)
    (u₁ u₂ : Job → String → Json → DbRowOutcome) (jobs : List Job) :
    processAllJobs { env with updateOutcome := u₁ } jobs
      = processAllJobs { env with updateOutcome := u₂ } jobs := by
  obtain ⟨p, s, d, i, u, w, n⟩ := env
  induction jobs with
  | nil => rfl
  | cons job rest ih =>
    rw [processAllJobs, processAllJobs,
      processJob_update_indep p s d i w n u₁ u₂ job, ih]

/-- Evaluating the Python guard `pct >= 0 and pct < 1` on a number. -/
theorem pyInRange01_num (f : ℚ) :
    pyInRange01 (.num f) = .ok (decide (0 ≤ f) && decide (f < 1)) := by
  by_cases h : 0 ≤ f <;>
    simp [pyInRange01, pyGe0, pyLt1, h, Bind.bind, Except.bind, Pure.pure, Except.pure]

/-- C3 (claim theorem): for a `Posted` record whose status query succeeds
with completion fraction `f`: a fraction in `[0,1)` produces no transition
and no rerun flag; exactly `1` triggers the download and, on download
success, a transition to `Downloaded` carrying the artifact path with the
rerun flag set; a fraction outside `[0,1]` only logs the contract
violation — no transition (in particular not to `Error`), no rerun flag. -/
theorem posted_fraction_policy (env : Env) (job : Job) (f : ℚ)
    (hs : job.statusName = "Posted")
    (hc : checkAddeparJobStatus (env.pollOutcome job) = .ok (some (.num f))) :
    (0 ≤ f → f < 1 → processJob env job = .ok ⟨[], false, []⟩) ∧
    (f = 1 →
      downloadAddeparJob (env.downloadOutcome job)
          (dataSavePath job.jobName job.asOfDate) env.writeFileOk = true →
      processJob env job =
        .ok ⟨[⟨job.id, "Downloaded", .str (dataSavePath job.jobName job.asOfDate)⟩],
          true, []⟩) ∧
    (f < 0 ∨ 1 < f →
      processJob env job = .ok ⟨[], false, [.percentOutOfRange (.num f)]⟩) := by
  rw [processJob_posted env job hs]
  refine ⟨?_, ?_, ?_⟩
  · intro h0 h1
    simp [handlePosted, hc, pyInRange01_num, h0, h1]
  · intro h1 hdl
    subst h1
    have hlt : ¬((1 : ℚ) < 1) := lt_irrefl 1
    simp [handlePosted, hc, pyInRange01_num, hlt, pyEq1, hdl]
  · rintro (h | h)
    · have h0 : ¬(0 ≤ f) := not_le.mpr h
      have h1 : f ≠ 1 := by intro hf; rw [hf] at h; exact absurd h (by norm_num)
      simp [handlePosted, hc, pyInRange01_num, h0, pyEq1, h1]
    · have h0 : (0 : ℚ) ≤ f := le_of_lt (lt_trans one_pos h)
      have h1 : ¬(f < 1) := not_lt.mpr (le_of_lt h)
      have h2 : f ≠ 1 := by intro hf; rw [hf] at h; exact absurd h (lt_irrefl 1)
      simp [handlePosted, hc, pyInRange01_num, h0, h1, pyEq1, h2]

/-- C7 (claim theorem): submitting a `Queued` record. Each enumerated
failure mode of `post_addepar_job` — transport error, non-202 response
status, unparsable response body, missing `data`/`id` key in the parsed
response — yields the `None` result, and the `Queued` handler turns a
`None` result into an `Error` transition carrying the fixed diagnostic
string (rerun flag false); a successful submit returning a job handle
turns into a `Posted` transition carrying that handle (rerun flag
false). -/
theorem queued_submit_policy (env : Env) (job : Job) (hs : job.statusName = "Queued") :
    (postAddeparJob .exn "logs/" env.writeFileOk env.now = .ok none) ∧
    (∀ code body parsed, code ≠ 202 →
      postAddeparJob (.response code body parsed) "logs/" env.writeFileOk env.now = .ok none) ∧
    (∀ code body,
      postAddeparJob (.response code body none) "logs/" env.writeFileOk env.now = .ok none) ∧
    (∀ code body fields, fields.lookup "data" = none →
      postAddeparJob (.response code body (some (.obj fields))) "logs/" env.writeFileOk env.now
        = .ok none) ∧
    (∀ code body fields fields2, fields.lookup "data" = some (.obj fields2) →
      fields2.lookup "id" = none →
      postAddeparJob (.response code body (some (.obj fields))) "logs/" env.writeFileOk env.now
        = .ok none) ∧
    (postAddeparJob (env.postOutcome job) "logs/" env.writeFileOk env.now = .ok none →
      processJob env job = .ok ⟨[⟨job.id, "Error", .str postFailureDetail⟩], false, []⟩) ∧
    (∀ v, postAddeparJob (env.postOutcome job) "logs/" env.writeFileOk env.now = .ok (some v) →
      processJob env job = .ok ⟨[⟨job.id, "Posted", v⟩], false, []⟩) := by
  refine ⟨rfl, ?_, ?_, ?_, ?_, ?_, ?_⟩
  · intro code body parsed hcode
    simp [postAddeparJob, hcode]
  · intro code body
    by_cases hcode : code = 202 <;> simp [postAddeparJob, hcode]
  · intro code body fields hf
    by_cases hcode : code = 202 <;> simp [postAddeparJob, hcode, getItem, hf]
  · intro code body fields fields2 hf hf2
    by_cases hcode : code = 202 <;> simp [postAddeparJob, hcode, getItem, hf, hf2]
  · intro hpost
    rw [processJob_queued env job hs]
    simp [handleQueued, hpost]
  · intro v hpost
    rw [processJob_queued env job hs]
    simp [handleQueued, hpost]

/-- Rendering of a transition-write detail value into the string column
the stored procedure receives (Python f-string interpolation; the repr of
container values is abstracted, no orchestrator write carries one). -/
def detailString : Json → String
  | .str s => s
  | .num q => toString q
  | .bool b => if b then "True" else "False"
  | .null => "None"
  | .arr _ => ""
  | .obj _ => ""

/-- Effect of one recorded transition on the job-queue table: the row
whose id matches gets the new status and detail. -/
def applyWrite (db : List Job) (w : Write) : List Job :=
  db.map fun j =>
    if j.id = w.jobId then
      { j with statusName := w.toStatus, queryParameters := detailString w.detail }
    else j

/-- Iterated batch passes: each pass processes the current table contents
and applies the transition writes it requested; a pass that raises leaves
the table as is (the program crashes). This is the `while rerun` loop of
`src/main.py` lines 541-559, with the re-fetch modelled as reading the
updated table. -/
def runPasses (env : Env) : List Job → Nat → List Job
  | db, 0 => db
  | db, n + 1 =>
    match processAllJobs env db with
    | .error _ => db
    | .ok r => runPasses env (r.writes.foldl applyWrite db) n

/-- Every write of a successful batch pass was requested while processing
some record of the batch. -/
theorem processAllJobs_write_source (env : Env) (db : List Job) (r : JobResult)
    (h : processAllJobs env db = .ok r) :
    ∀ w ∈ r.writes, ∃ j ∈ db, ∃ rj, processJob env j = .ok rj ∧ w ∈ rj.writes := by
  induction db generalizing r with
  | nil =>
    rw [processAllJobs_nil] at h
    injection h with h; subst h; simp
  | cons job rest ih =>
    obtain ⟨rj, rs, hj, hrest, rfl⟩ := processAllJobs_cons_ok env job rest r h
    intro w hw
    rcases List.mem_append.mp hw with hw' | hw'
    · exact ⟨job, List.mem_cons_self job rest, rj, hj, hw'⟩
    · obtain ⟨j, hm, rj', h', hw''⟩ := ih rs hrest w hw'
      exact ⟨j, List.mem_cons_of_mem job hm, rj', h', hw''⟩

/-- Applying writes that never target a given id leaves every record with
that id untouched (it is still one of the original records). -/
theorem foldl_applyWrite_untouched (tid : Int) :
    ∀ (ws : List Write) (db : List Job), (∀ w ∈ ws, w.jobId ≠ tid) →
      ∀ j ∈ ws.foldl applyWrite db, j.id = tid → j ∈ db := by
  intro ws
  induction ws with
  | nil => intro db _ j hj _; simpa using hj
  | cons w ws ih =>
    intro db hws j hj hid
    have hmem : j ∈ applyWrite db w :=
      ih (applyWrite db w) (fun w' hw' => hws w' (List.mem_cons_of_mem w hw'))
        j (by simpa using hj) hid
    obtain ⟨j0, hj0, hgj⟩ := List.mem_map.mp hmem
    by_cases hc : j0.id = w.jobId
    · rw [if_pos hc] at hgj
      have : j.id = j0.id := by rw [← hgj]
      have : w.jobId = tid := by rw [← hc, ← this, hid]
      exact absurd this (hws w (List.mem_cons_self w ws))
    · rw [if_neg hc] at hgj
      rw [← hgj]; exact hj0

/-- If every record carrying a given id is in `Error`, no write of a
successful pass targets that id. -/
theorem pass_writes_avoid_error_id (env : Env) (db : List Job) (r : JobResult) (tid : Int)
    (hdb : ∀ j ∈ db, j.id = tid → j.statusName = "Error")
    (h : processAllJobs env db = .ok r) :
    ∀ w ∈ r.writes, w.jobId ≠ tid := by
  intro w hw heq
  obtain ⟨j, hm, rj, hj, hw'⟩ := processAllJobs_write_source env db r h w hw
  have hid : w.jobId = j.id := (processJob_write_shape env j rj hj w hw').1
  have herr : j.statusName = "Error" := hdb j hm (by rw [← hid, heq])
  have hempty : rj.writes = [] := by
    refine processJob_unhandled_no_writes env j rj ?_ ?_ ?_ ?_ hj <;> rw [herr] <;> decide
  rw [hempty] at hw'
  cases hw'

/-- Records whose id is carried only by `Error` records are never touched
by any number of repeated passes. -/
theorem runPasses_error_frozen (env : Env) (tid : Int) :
    ∀ (n : ℕ) (db : List Job), (∀ j ∈ db, j.id = tid → j.statusName = "Error") →
      ∀ j ∈ runPasses env db n, j.id = tid → j ∈ db := by
  intro n
  induction n with
  | zero => intro db _ j hj _; simpa [runPasses] using hj
  | succ n ih =>
    intro db hdb j hj hid
    rw [runPasses] at hj
    rcases hall : processAllJobs env db with e | r <;> rw [hall] at hj
    · exact hj
    · have hwid : ∀ w ∈ r.writes, w.jobId ≠ tid :=
        pass_writes_avoid_error_id env db r tid hdb hall
      have hdb' : ∀ j' ∈ r.writes.foldl applyWrite db, j'.id = tid → j'.statusName = "Error" :=
        fun j' hj' hid' =>
          hdb j' (foldl_applyWrite_untouched tid r.writes db hwid j' hj' hid') hid'
      exact foldl_applyWrite_untouched tid r.writes db hwid j (ih _ hdb' j hj hid) hid

/-- C5 (claim theorem): a record whose status is not Queued, Posted,
Downloaded or Imported (so in particular Completed, Error, or any
unrecognized string) only triggers an error log — no transition write, no
rerun flag; consequently a record in `Error` (whose id no non-Error record
shares) is never moved by any number of repeated batch passes. -/
theorem unmatched_status_and_error_frozen (env : Env) :
    (∀ job : Job, job.statusName ≠ "Queued" → job.statusName ≠ "Posted" →
      job.statusName ≠ "Downloaded" → job.statusName ≠ "Imported" →
      processJob env job = .ok ⟨[], false, [.unmatchedStatus job.statusName]⟩) ∧
    (∀ (db : List Job) (tid : Int) (n : ℕ),
      (∀ j ∈ db, j.id = tid → j.statusName = "Error") →
      ∀ j ∈ runPasses env db n, j.id = tid → j ∈ db ∧ j.statusName = "Error") :=
  ⟨fun job h1 h2 h3 h4 => processJob_unmatched env job h1 h2 h3 h4,
    fun db tid n hdb j hj hid =>
      ⟨runPasses_error_frozen env tid n db hdb j hj hid,
        hdb j (runPasses_error_frozen env tid n db hdb j hj hid) hid⟩⟩

/-- A collaborator failure of one of the categories the handlers catch:
a failed submit call (transport error, bad status code, parse failure, or
missing key, all of which `post_addepar_job` turns into `None`), a failed
status query, a failed download of a complete job, or a failed
staging-import / target-merge procedure. -/
def CollabFail (env : Env) (j : Job) : Prop :=
  (j.statusName = "Queued" ∧
    postAddeparJob (env.postOutcome j) "logs/" env.writeFileOk env.now = .ok none) ∨
  (j.statusName = "Posted" ∧ checkAddeparJobStatus (env.pollOutcome j) = .ok none) ∨
  (j.statusName = "Posted" ∧
    (∃ v, checkAddeparJobStatus (env.pollOutcome j) = .ok (some v) ∧
      pyInRange01 v = .ok false ∧ pyEq1 v = true) ∧
    downloadAddeparJob (env.downloadOutcome j) (dataSavePath j.jobName j.asOfDate)
      env.writeFileOk = false) ∨
  ((j.statusName = "Downloaded" ∨ j.statusName = "Imported") ∧
    env.importProcOutcome j = .sqlError)

theorem collabFail_to_error (env : Env) (j : Job) (hf : CollabFail env j) :
    ∃ rj, processJob env j = .ok rj ∧
      ∃ d, rj.writes = [⟨j.id, "Error", .str d⟩] ∧ rj.rerun = false := by
  rcases hf with ⟨hs, hpost⟩ | ⟨hs, hc⟩ | ⟨hs, ⟨v, hc, hr, he⟩, hdl⟩ | ⟨hs, hi⟩
  · rw [processJob_queued env j hs]
    exact ⟨⟨[⟨j.id, "Error", .str postFailureDetail⟩], false, []⟩,
      by simp [handleQueued, hpost], postFailureDetail, rfl, rfl⟩
  · rw [processJob_posted env j hs]
    exact ⟨⟨[⟨j.id, "Error", .str checkFailureDetail⟩], false, []⟩,
      by simp [handlePosted, hc], checkFailureDetail, rfl, rfl⟩
  · rw [processJob_posted env j hs]
    exact ⟨⟨[⟨j.id, "Error", .str downloadFailureDetail⟩], false,
        [.downloadError j.jobName j.id]⟩,
      by simp [handlePosted, hc, hr, he, hdl], downloadFailureDetail, rfl, rfl⟩
  · rcases hs with hs | hs
    · rw [processJob_downloaded env j hs]
      exact ⟨⟨[⟨j.id, "Error", .str importFailureDetail⟩], false,
          [.importError j.jobName j.id]⟩,
        by simp [handleDownloaded, hi, execImportProc], importFailureDetail, rfl, rfl⟩
    · rw [processJob_imported env j hs]
      exact ⟨⟨[⟨j.id, "Error", .str targetFailureDetail⟩], false,
          [.targetInsertError j.jobName j.id]⟩,
        by simp [handleImported, hi, execImportProc], targetFailureDetail, rfl, rfl⟩

/-- C6 (amended-claim theorem): when no record's processing raises an
uncaught exception, the batch pass succeeds and is exactly the
concatenation of the independent per-record results (so one record's
collaborator failure cannot abort the others), and every collaborator
failure of the caught categories is converted locally into a single
`Error` transition with a diagnostic detail and rerun = false. -/
theorem batch_recovers_caught_failures (env : Env) (jobs : List Job)
    (hok : ∀ j ∈ jobs, ∃ rj, processJob env j = .ok rj) :
    (∃ rs : List JobResult,
      List.Forall₂ (fun j rj => processJob env j = .ok rj) jobs rs ∧
      processAllJobs env jobs =
        .ok ⟨(rs.map JobResult.writes).join, rs.any JobResult.rerun,
          (rs.map JobResult.errLogs).join⟩) ∧
    (∀ j ∈ jobs, CollabFail env j →
      ∃ rj, processJob env j = .ok rj ∧
        ∃ d, rj.writes = [⟨j.id, "Error", .str d⟩] ∧ rj.rerun = false) := by
  constructor
  · induction jobs with
    | nil => exact ⟨[], List.Forall₂.nil, by simp [processAllJobs_nil]⟩
    | cons job rest ih =>
      obtain ⟨rj, hj⟩ := hok job (List.mem_cons_self job rest)
      obtain ⟨rs, hf, hall⟩ := ih (fun j hm => hok j (List.mem_cons_of_mem job hm))
      refine ⟨rj :: rs, List.Forall₂.cons hj hf, ?_⟩
      rw [processAllJobs, hj, hall]
      simp
  · exact fun j _ hf => collabFail_to_error env j hf

/-- Environment for the C6 counterexample: the submit call for the record
with id 1 receives HTTP 202 with the syntactically valid JSON body `[]`
(a list, not an object), so `json.loads` succeeds and the subsequent
`json_dict['data']` raises an uncaught `TypeError`; the record with id 2
would submit successfully. -/
def envCrash : Env where
  postOutcome j :=
    if j.id = 1 then .response 202 "[]" (some (.arr []))
    else .response 202 "{}" (some (.obj [("data", .obj [("id", .str "42")])]))
  pollOutcome _ := .exn
  downloadOutcome _ := .exn
  importProcOutcome _ := .sqlError
  updateOutcome _ _ _ := .row 1
  writeFileOk _ := true
  now := "20230118-000000"

/-- A queued record whose submit response has the malformed shape. -/
def jobCrashQ : Job := ⟨1, "Accounts", "2023-01-18", "Queued", "params"⟩

/-- A queued record whose submit would succeed. -/
def jobOkQ : Job := ⟨2, "Holdings", "2023-01-18", "Queued", "params"⟩

/-- C6 (counterexample): a response-shape failure — HTTP 202 with valid
JSON body `[]` — is not recovered locally: the batch raises `TypeError`
(so no `Error` transition is recorded for the failing record), and the
second record, which on its own would be processed successfully, is
abandoned. -/
theorem batch_raises_on_malformed_shape :
    processAllJobs envCrash [jobCrashQ, jobOkQ] = .error .typeError ∧
    processJob envCrash jobOkQ = .ok ⟨[⟨2, "Posted", .str "42"⟩], false, []⟩ :=
  ⟨rfl, rfl⟩

/-- The payload save path as a function of everything available at the
call site (`src/main.py` line 442): job name and as-of date; the
timestamp is not used. -/
def dataSavePathFull (jobName jobDate now : String) : String :=
  dataSavePath jobName jobDate

/-- The response save path as a function of everything available at the
call site (`src/main.py` lines 74-75, `response_save_path='logs/'`):
the timestamp; job name and as-of date are not used. -/
def postResponseSavePathFull (jobName jobDate now : String) : String :=
  postResponseSavePath "logs/" now

/-- A path constructor is built from the job name, the as-of date and a
timestamp when the path it produces distinguishes each of the three
inputs, the other two held fixed. -/
def BuiltFromNameDateTimestamp (f : String → String → String → String) : Prop :=
  (∀ n d t t', f n d t = f n d t' → t = t') ∧
  (∀ n n' d t, f n d t = f n' d t → n = n') ∧
  (∀ n d d' t, f n d t = f n d' t → d = d')

theorem string_data_inj {a b : String} (h : a.data = b.data) : a = b := by
  cases a; cases b; exact congrArg String.mk h

/-- C8 (counterexample): the payload save path is unchanged under a
change of timestamp, and the response save path is unchanged under a
change of job name; neither constructed path is built from all of job
name, as-of date and timestamp. -/
theorem artifact_path_counterexample :
    dataSavePathFull "Accounts" "2023-01-18" "20230101-000000"
      = dataSavePathFull "Accounts" "2023-01-18" "20240202-111111" ∧
    ("20230101-000000" : String) ≠ "20240202-111111" ∧
    postResponseSavePathFull "Accounts" "2023-01-18" "20230101-000000"
      = postResponseSavePathFull "Holdings" "2023-01-18" "20230101-000000" ∧
    ("Accounts" : String) ≠ "Holdings" ∧
    ¬ BuiltFromNameDateTimestamp dataSavePathFull ∧
    ¬ BuiltFromNameDateTimestamp postResponseSavePathFull := by
  refine ⟨rfl, by decide, rfl, by decide, ?_, ?_⟩
  · rintro ⟨h1, -, -⟩
    have := h1 "Accounts" "2023-01-18" "20230101-000000" "20240202-111111" rfl
    exact absurd this (by decide)
  · rintro ⟨-, h2, -⟩
    have := h2 "Accounts" "Holdings" "2023-01-18" "20230101-000000" rfl
    exact absurd this (by decide)

/-- C8 (amended-claim theorem): the response save path is built from the
fixed log directory, a fixed prefix and the timestamp (and determines the
timestamp); the payload save path is built from the job name and the
as-of date only (and determines each, the other held fixed). -/
theorem artifact_path_construction :
    (∀ n d t, postResponseSavePathFull n d t = "logs/AddeparPostResponse_" ++ t ++ ".txt") ∧
    (∀ n n' d d' t t', postResponseSavePathFull n d t = postResponseSavePathFull n' d' t' →
      t = t') ∧
    (∀ n d t, dataSavePathFull n d t = "data/" ++ n ++ "_" ++ d ++ ".json") ∧
    (∀ n n' d t t', dataSavePathFull n d t = dataSavePathFull n' d t' → n = n') ∧
    (∀ n d d' t t', dataSavePathFull n d t = dataSavePathFull n d' t' → d = d') := by
  have hpost : ∀ n d t,
      postResponseSavePathFull n d t = "logs/AddeparPostResponse_" ++ t ++ ".txt" := by
    have hjoin : joinDirSep "logs/" = "logs/" := by decide
    intro n d t
    apply string_data_inj
    simp [postResponseSavePathFull, postResponseSavePath, hjoin, List.append_assoc]
  have hdata : ∀ n d t, dataSavePathFull n d t = "data/" ++ n ++ "_" ++ d ++ ".json" := by
    intro n d t
    apply string_data_inj
    simp [dataSavePathFull, dataSavePath, List.append_assoc]
  refine ⟨hpost, ?_, hdata, ?_, ?_⟩
  · intro n n' d d' t t' h
    rw [hpost n d t, hpost n' d' t'] at h
    have := congrArg String.data h
    simp [List.append_assoc] at this
    exact string_data_inj this
  · intro n n' d t t' h
    rw [hdata n d t, hdata n' d t'] at h
    have := congrArg String.data h
    simp [List.append_assoc] at this
    exact string_data_inj this
  · intro n d d' t t' h
    rw [hdata n d t, hdata n d' t'] at h
    have := congrArg String.data h
    simp [List.append_assoc] at this
    exact string_data_inj this

/-- The standard Base64 alphabet, as used by Python's `base64.b64encode`. -/
def b64Char (v : Nat) : Char :=
  if v < 26 then Char.ofNat (65 + v)
  else if v < 52 then Char.ofNat (97 + (v - 26))
  else if v < 62 then Char.ofNat (48 + (v - 52))
  else if v = 62 then '+'
  else '/'

/-- Inverse lookup for the Base64 alphabet (`'='` and every other
character map to `none`). -/
def b64DecChar (c : Char) : Option Nat :=
  if 'A' ≤ c ∧ c ≤ 'Z' then some (c.toNat - 65)
  else if 'a' ≤ c ∧ c ≤ 'z' then some (c.toNat - 97 + 26)
  else if '0' ≤ c ∧ c ≤ '9' then some (c.toNat - 48 + 52)
  else if c = '+' then some 62
  else if c = '/' then some 63
  else none

theorem b64DecChar_b64Char_fin : ∀ v : Fin 64, b64DecChar (b64Char v.val) = some v.val := by
  decide

theorem b64DecChar_b64Char {v : Nat} (h : v < 64) : b64DecChar (b64Char v) = some v :=
  b64DecChar_b64Char_fin ⟨v, h⟩

/-- First reconstructed byte of a Base64 quantum. -/
def byte1 (v1 v2 : Nat) : Nat := v1 * 4 + v2 / 16

/-- Second reconstructed byte of a Base64 quantum. -/
def byte2 (v2 v3 : Nat) : Nat := v2 % 16 * 16 + v3 / 4

/-- Third reconstructed byte of a Base64 quantum. -/
def byte3 (v3 v4 : Nat) : Nat := v3 % 4 * 64 + v4

/-- Standard Base64 encoding of a byte sequence with `'='` padding, the
algorithm of `base64.b64encode` (RFC 4648 §4). -/
def base64Encode : List Nat → List Char
  | [] => []
  | [a] => [b64Char (a / 4), b64Char (a % 4 * 16), '=', '=']
  | [a, b] => [b64Char (a / 4), b64Char (a % 4 * 16 + b / 16), b64Char (b % 16 * 4), '=']
  | a :: b :: c :: rest =>
    b64Char (a / 4) :: b64Char (a % 4 * 16 + b / 16) ::
      b64Char (b % 16 * 4 + c / 64) :: b64Char (c % 64) :: base64Encode rest

/-- Base64 decoding (the inverse reading of RFC 4648 §4, strict about
alphabet membership and padding placement). -/
def base64Decode : List Char → Option (List Nat)
  | [] => some []
  | c1 :: c2 :: c3 :: c4 :: rest =>
    match b64DecChar c1, b64DecChar c2, b64DecChar c3, b64DecChar c4 with
    | some v1, some v2, some v3, some v4 =>
      (base64Decode rest).map (fun bs => byte1 v1 v2 :: byte2 v2 v3 :: byte3 v3 v4 :: bs)
    | some v1, some v2, some v3, none =>
      if c4 = '=' ∧ rest = [] then some [byte1 v1 v2, byte2 v2 v3] else none
    | some v1, some v2, none, none =>
      if c3 = '=' ∧ c4 = '=' ∧ rest = [] then some [byte1 v1 v2] else none
    | _, _, _, _ => none
  | _ => none

theorem b64DecChar_pad : b64DecChar '=' = none := by decide

/-- Base64 decoding inverts Base64 encoding on byte sequences. -/
theorem base64_roundtrip : ∀ bs : List Nat, (∀ b ∈ bs, b < 256) →
    base64Decode (base64Encode bs) = some bs := by
  intro bs
  induction bs using base64Encode.induct with
  | case1 => intro _; rfl
  | case2 a =>
    intro hb
    have ha : a < 256 := hb a (by simp)
    have h1 : a / 4 < 64 := by omega
    have h2 : a % 4 * 16 < 64 := by omega
    simp only [base64Encode, base64Decode, b64DecChar_b64Char h1, b64DecChar_b64Char h2,
      b64DecChar_pad]
    simp only [and_self, reduceIte, byte1]
    congr 2
    omega
  | case3 a b =>
    intro hb
    have ha : a < 256 := hb a (by simp)
    have hbb : b < 256 := hb b (by simp)
    have h1 : a / 4 < 64 := by omega
    have h2 : a % 4 * 16 + b / 16 < 64 := by omega
    have h3 : b % 16 * 4 < 64 := by omega
    simp only [base64Encode, base64Decode, b64DecChar_b64Char h1, b64DecChar_b64Char h2,
      b64DecChar_b64Char h3, b64DecChar_pad]
    simp only [and_self, reduceIte, byte1, byte2]
    congr 2
    · omega
    · congr 1
      omega
  | case4 a b c rest ih =>
    intro hb
    have ha : a < 256 := hb a (by simp)
    have hbb : b < 256 := hb b (by simp)
    have hc : c < 256 := hb c (by simp)
    have hrest : ∀ x ∈ rest, x < 256 := fun x hx => hb x (by simp [hx])
    have h1 : a / 4 < 64 := by omega
    have h2 : a % 4 * 16 + b / 16 < 64 := by omega
    have h3 : b % 16 * 4 + c / 64 < 64 := by omega
    have h4 : c % 64 < 64 := by omega
    have e1 : byte1 (a / 4) (a % 4 * 16 + b / 16) = a := by unfold byte1; omega
    have e2 : byte2 (a % 4 * 16 + b / 16) (b % 16 * 4 + c / 64) = b := by unfold byte2; omega
    have e3 : byte3 (b % 16 * 4 + c / 64) (c % 64) = c := by unfold byte3; omega
    simp only [base64Encode, base64Decode, b64DecChar_b64Char h1, b64DecChar_b64Char h2,
      b64DecChar_b64Char h3, b64DecChar_b64Char h4, ih hrest, Option.map_some, e1, e2, e3]
    rfl

/-- UTF-8 encoding of one Unicode code point (the algorithm behind
Python's `bytes(s, 'utf-8')`). -/
def utf8EncodeNat (n : Nat) : List Nat :=
  if n < 128 then [n]
  else if n < 2048 then [192 + n / 64, 128 + n % 64]
  else if n < 65536 then [224 + n / 4096, 128 + n / 64 % 64, 128 + n % 64]
  else [240 + n / 262144, 128 + n / 4096 % 64, 128 + n / 64 % 64, 128 + n % 64]

/-- UTF-8 encoding of a character sequence. -/
def utf8EncodeList : List Char → List Nat
  | [] => []
  | c :: cs => utf8EncodeNat c.toNat ++ utf8EncodeList cs

/-- UTF-8 encoding of a string. -/
def utf8Encode (s : String) : List Nat := utf8EncodeList s.data

/-- Decode one UTF-8-encoded code point from a leading byte and the
remaining bytes, returning the code point and the unconsumed rest
(`none` on a malformed prefix). -/
def utf8DecodeOne (b1 : Nat) (t : List Nat) : Option (Nat × List Nat) :=
  if b1 < 128 then some (b1, t)
  else if b1 < 192 then none
  else if b1 < 224 then
    match t with
    | b2 :: t2 =>
      if 128 ≤ b2 ∧ b2 < 192 then some ((b1 - 192) * 64 + (b2 - 128), t2) else none
    | [] => none
  else if b1 < 240 then
    match t with
    | b2 :: b3 :: t3 =>
      if (128 ≤ b2 ∧ b2 < 192) ∧ (128 ≤ b3 ∧ b3 < 192) then
        some ((b1 - 224) * 4096 + (b2 - 128) * 64 + (b3 - 128), t3)
      else none
    | _ => none
  else if b1 < 256 then
    match t with
    | b2 :: b3 :: b4 :: t4 =>
      if (128 ≤ b2 ∧ b2 < 192) ∧ (128 ≤ b3 ∧ b3 < 192) ∧ (128 ≤ b4 ∧ b4 < 192) then
        some ((b1 - 240) * 262144 + (b2 - 128) * 4096 + (b3 - 128) * 64 + (b4 - 128), t4)
      else none
    | _ => none
  else none

set_option maxRecDepth 8192 in
theorem utf8DecodeOne_rest_length {b1 : Nat} {t : List Nat} {n : Nat} {rest : List Nat}
    (h : utf8DecodeOne b1 t = some (n, rest)) : rest.length ≤ t.length := by
  unfold utf8DecodeOne at h
  rcases t with _ | ⟨b2, (_ | ⟨b3, (_ | ⟨b4, t4⟩)⟩)⟩ <;>
    dsimp only at h <;>
    split_ifs at h <;>
    (injection h with h; cases h; (try simp only [List.length_cons]); omega)

/-- UTF-8 decoding of a byte sequence into code points (`none` on a
malformed sequence). -/
def utf8DecodeNats (l : List Nat) : Option (List Nat) :=
  match l with
  | [] => some []
  | b1 :: t =>
    match h : utf8DecodeOne b1 t with
    | some (n, rest) => (utf8DecodeNats rest).map (n :: ·)
    | none => none
termination_by l.length
decreasing_by
  simp only [List.length_cons]
  exact Nat.lt_succ_of_le (utf8DecodeOne_rest_length h)

theorem utf8DecodeNats_cons_some {b1 : Nat} {t : List Nat} {n : Nat} {rest : List Nat}
    (h : utf8DecodeOne b1 t = some (n, rest)) :
    utf8DecodeNats (b1 :: t) = (utf8DecodeNats rest).map (n :: ·) := by
  rw [utf8DecodeNats]
  split
  · next n2 rest2 heq =>
    rw [h] at heq
    injection heq with heq
    cases heq
    rfl
  · next heq =>
    rw [h] at heq
    cases heq

/-- UTF-8 decoding of a byte sequence into a string. -/
def utf8DecodeString (bs : List Nat) : Option String :=
  (utf8DecodeNats bs).map (fun ns => String.mk (ns.map Char.ofNat))

theorem char_toNat_lt (c : Char) : c.toNat < 1114112 := by
  rcases c.valid with h | ⟨-, h⟩
  · exact Nat.lt_trans h (by norm_num)
  · exact h

theorem utf8DecodeOne_ascii {b1 : Nat} (h : b1 < 128) (t : List Nat) :
    utf8DecodeOne b1 t = some (b1, t) := by
  unfold utf8DecodeOne
  rw [if_pos h]

theorem utf8DecodeOne_two {b1 b2 : Nat} (h1 : 192 ≤ b1) (h2 : b1 < 224)
    (hc : 128 ≤ b2 ∧ b2 < 192) (t : List Nat) :
    utf8DecodeOne b1 (b2 :: t) = some ((b1 - 192) * 64 + (b2 - 128), t) := by
  unfold utf8DecodeOne
  rw [if_neg (by omega), if_neg (by omega), if_pos h2]
  dsimp only
  rw [if_pos hc]

theorem utf8DecodeOne_three {b1 b2 b3 : Nat} (h1 : 224 ≤ b1) (h2 : b1 < 240)
    (hc : (128 ≤ b2 ∧ b2 < 192) ∧ (128 ≤ b3 ∧ b3 < 192)) (t : List Nat) :
    utf8DecodeOne b1 (b2 :: b3 :: t) =
      some ((b1 - 224) * 4096 + (b2 - 128) * 64 + (b3 - 128), t) := by
  unfold utf8DecodeOne
  rw [if_neg (by omega), if_neg (by omega), if_neg (by omega), if_pos h2]
  dsimp only
  rw [if_pos hc]

theorem utf8DecodeOne_four {b1 b2 b3 b4 : Nat} (h1 : 240 ≤ b1) (h2 : b1 < 256)
    (hc : (128 ≤ b2 ∧ b2 < 192) ∧ (128 ≤ b3 ∧ b3 < 192) ∧ (128 ≤ b4 ∧ b4 < 192))
    (t : List Nat) :
    utf8DecodeOne b1 (b2 :: b3 :: b4 :: t) =
      some ((b1 - 240) * 262144 + (b2 - 128) * 4096 + (b3 - 128) * 64 + (b4 - 128), t) := by
  unfold utf8DecodeOne
  rw [if_neg (by omega), if_neg (by omega), if_neg (by omega), if_neg (by omega), if_pos h2]
  dsimp only
  rw [if_pos hc]

theorem utf8EncodeNat_bytes_lt {n : Nat} (hv : n < 1114112) :
    ∀ b ∈ utf8EncodeNat n, b < 256 := by
  intro b hb
  unfold utf8EncodeNat at hb
  split at hb
  · simp at hb; omega
  split at hb
  · simp at hb; rcases hb with hb | hb <;> omega
  split at hb
  · simp at hb; rcases hb with hb | hb | hb <;> omega
  · simp at hb; rcases hb with hb | hb | hb | hb <;> omega

theorem utf8EncodeList_bytes_lt (l : List Char) :
    ∀ b ∈ utf8EncodeList l, b < 256 := by
  induction l with
  | nil => intro b hb; cases hb
  | cons c cs ih =>
    intro b hb
    rcases List.mem_append.mp hb with hb' | hb'
    · exact utf8EncodeNat_bytes_lt (char_toNat_lt c) b hb'
    · exact ih b hb'

theorem utf8DecodeNats_encodeNat {n : Nat} (hv : n < 1114112) (bs : List Nat) :
    utf8DecodeNats (utf8EncodeNat n ++ bs) = (utf8DecodeNats bs).map (n :: ·) := by
  by_cases h1 : n < 128
  · simp only [utf8EncodeNat, if_pos h1, List.cons_append, List.nil_append]
    rw [utf8DecodeNats_cons_some (utf8DecodeOne_ascii h1 bs)]
  by_cases h2 : n < 2048
  · simp only [utf8EncodeNat, if_neg h1, if_pos h2, List.cons_append, List.nil_append]
    rw [utf8DecodeNats_cons_some (utf8DecodeOne_two (by omega) (by omega) (by omega) bs)]
    have e : (192 + n / 64 - 192) * 64 + (128 + n % 64 - 128) = n := by omega
    rw [e]
  by_cases h3 : n < 65536
  · simp only [utf8EncodeNat, if_neg h1, if_neg h2, if_pos h3, List.cons_append,
      List.nil_append]
    rw [utf8DecodeNats_cons_some (utf8DecodeOne_three (by omega) (by omega) (by omega) bs)]
    have e : (224 + n / 4096 - 224) * 4096 + (128 + n / 64 % 64 - 128) * 64 +
        (128 + n % 64 - 128) = n := by omega
    rw [e]
  · simp only [utf8EncodeNat, if_neg h1, if_neg h2, if_neg h3, List.cons_append,
      List.nil_append]
    rw [utf8DecodeNats_cons_some (utf8DecodeOne_four (by omega) (by omega) (by omega) bs)]
    have e : (240 + n / 262144 - 240) * 262144 + (128 + n / 4096 % 64 - 128) * 4096 +
        (128 + n / 64 % 64 - 128) * 64 + (128 + n % 64 - 128) = n := by omega
    rw [e]

theorem utf8DecodeNats_nil : utf8DecodeNats [] = some [] := by
  rw [utf8DecodeNats]

theorem utf8DecodeNats_encodeList (l : List Char) :
    utf8DecodeNats (utf8EncodeList l) = some (l.map Char.toNat) := by
  induction l with
  | nil => rw [show utf8EncodeList [] = ([] : List Nat) from rfl, utf8DecodeNats_nil]; rfl
  | cons c cs ih =>
    rw [utf8EncodeList, utf8DecodeNats_encodeNat (char_toNat_lt c), ih]
    rfl

/-- UTF-8 decoding inverts UTF-8 encoding on strings. -/
theorem utf8_roundtrip (s : String) : utf8DecodeString (utf8Encode s) = some s := by
  unfold utf8DecodeString utf8Encode
  rw [utf8DecodeNats_encodeList]
  simp only [Option.map_some', List.map_map]
  have h : List.map (Char.ofNat ∘ Char.toNat) s.data = s.data := by
    rw [show Char.ofNat ∘ Char.toNat = id from funext Char.ofNat_toNat, List.map_id]
  rw [h]

/-- `create_auth_string` (`src/main.py` lines 20-35): Base64-encode the
UTF-8 bytes of `key + ':' + secret` and prepend `'Basic '`. -/
def createAuthString (key : String) (secret : String) : String :=
  "Basic " ++ String.mk (base64Encode (utf8Encode (key ++ ":" ++ secret)))

/-- Inverse reading of an authorization string: strip the literal
`'Basic '` prefix, Base64-decode the remainder and UTF-8-decode the
resulting bytes. -/
def decodeAuthString (a : String) : Option String :=
  if a.data.take 6 = "Basic ".data then
    match base64Decode (a.data.drop 6) with
    | some bs => utf8DecodeString bs
    | none => none
  else none

/-- C9 (claim theorem): for every key and secret, the authorization
string is the literal prefix `'Basic '` followed by a Base64 encoding
whose decoding recovers exactly the string `key + ':' + secret`. -/
theorem auth_string_roundtrip (key secret : String) :
    (createAuthString key secret).data.take 6 = "Basic ".data ∧
    decodeAuthString (createAuthString key secret) = some (key ++ ":" ++ secret) := by
  have hdata : (createAuthString key secret).data =
      "Basic ".data ++ base64Encode (utf8Encode (key ++ ":" ++ secret)) := by
    simp [createAuthString]
  have hlen : "Basic ".data.length = 6 := by decide
  have htake : (createAuthString key secret).data.take 6 = "Basic ".data := by
    rw [hdata]; exact List.take_left' hlen
  have hdrop : (createAuthString key secret).data.drop 6 =
      base64Encode (utf8Encode (key ++ ":" ++ secret)) := by
    rw [hdata]; exact List.drop_left' hlen
  refine ⟨htake, ?_⟩
  rw [decodeAuthString, if_pos htake, hdrop,
    base64_roundtrip (utf8Encode (key ++ ":" ++ secret))
      (utf8EncodeList_bytes_lt (key ++ ":" ++ secret).data)]
  exact utf8_roundtrip (key ++ ":" ++ secret)

/-- A fully-working environment: submits are accepted with handle
`"42"`, polls report completion `1`, downloads and file writes succeed,
procedures insert 1200 rows, transition writes succeed. -/
def envW : Env where
  postOutcome _ := .response 202 "{}" (some (.obj [("data", .obj [("id", .str "42")])]))
  pollOutcome _ :=
    .response 200 "{}"
      (some (.obj [("data", .obj [("attributes", .obj [("percent_complete", .num 1)])])]))
  downloadOutcome _ := .response 200 "payload" none
  importProcOutcome _ := .rows 1200
  updateOutcome _ _ _ := .row 1
  writeFileOk _ := true
  now := "20230118-120000"

/-- An environment in which every collaborator call fails in a caught
way. -/
def envFail : Env where
  postOutcome _ := .exn
  pollOutcome _ := .exn
  downloadOutcome _ := .exn
  importProcOutcome _ := .sqlError
  updateOutcome _ _ _ := .row 1
  writeFileOk _ := true
  now := "20230118-120000"

/-- Sample records used by the concrete witnesses. -/
def jobPostedW : Job := ⟨7, "Accounts", "2023-01-18", "Posted", "99"⟩

def jobQueuedW : Job := ⟨8, "Holdings", "2023-01-18", "Queued", "params"⟩

def jobDownloadedW : Job := ⟨9, "Accounts", "2023-01-18", "Downloaded", "EXEC proc"⟩

def jobErrW : Job := ⟨5, "Accounts", "2023-01-18", "Error", "failed earlier"⟩

def jobCompletedW : Job := ⟨6, "Accounts", "2023-01-18", "Completed", "1200"⟩

/-- The result of processing `jobPostedW` in `envW`: poll sees `1`,
download succeeds. -/
def rPostedW : JobResult :=
  ⟨[⟨7, "Downloaded", .str (dataSavePath "Accounts" "2023-01-18")⟩], true, []⟩

/-- C1 witness: the claim theorem evaluated on a concrete complete
`Posted` record. -/
theorem forward_only_transitions_witness :
    processJob envW jobPostedW = .ok rPostedW ∧
    ((∀ w ∈ rPostedW.writes, w.jobId = jobPostedW.id ∧
      (w.toStatus = "Error" ∨ statusSucc jobPostedW.statusName = some w.toStatus)) ∧
    ((jobPostedW.statusName = "Queued" ∨ jobPostedW.statusName = "Downloaded" ∨
        jobPostedW.statusName = "Imported") → ∃ w, rPostedW.writes = [w]) ∧
    (jobPostedW.statusName = "Posted" → rPostedW.writes = [] →
      ∃ v, checkAddeparJobStatus (envW.pollOutcome jobPostedW) = .ok (some v) ∧
        (pyInRange01 v = .ok true ∨ (pyInRange01 v = .ok false ∧ pyEq1 v = false)))) :=
  ⟨rfl, forward_only_transitions envW jobPostedW rPostedW rfl⟩

/-- C2 witness: the claim theorem evaluated on a concrete one-record
batch whose record is rerunnable. -/
theorem batch_rerun_iff_some_rerunnable_witness :
    processAllJobs envW [jobPostedW] = .ok rPostedW ∧
    (rPostedW.rerun = true ↔
      ∃ j ∈ [jobPostedW], ∃ rj, processJob envW j = .ok rj ∧ rj.rerun = true) :=
  ⟨rfl, batch_rerun_iff_some_rerunnable envW [jobPostedW] rPostedW rfl⟩

/-- C3 witness: the claim theorem evaluated on a concrete `Posted` record
whose poll returns exactly 1. -/
theorem posted_fraction_policy_witness :
    jobPostedW.statusName = "Posted" ∧
    checkAddeparJobStatus (envW.pollOutcome jobPostedW) = .ok (some (.num 1)) ∧
    ((0 ≤ (1 : ℚ) → (1 : ℚ) < 1 → processJob envW jobPostedW = .ok ⟨[], false, []⟩) ∧
    ((1 : ℚ) = 1 →
      downloadAddeparJob (envW.downloadOutcome jobPostedW)
          (dataSavePath jobPostedW.jobName jobPostedW.asOfDate) envW.writeFileOk = true →
      processJob envW jobPostedW =
        .ok ⟨[⟨jobPostedW.id, "Downloaded",
          .str (dataSavePath jobPostedW.jobName jobPostedW.asOfDate)⟩], true, []⟩) ∧
    ((1 : ℚ) < 0 ∨ 1 < (1 : ℚ) →
      processJob envW jobPostedW = .ok ⟨[], false, [.percentOutOfRange (.num 1)]⟩)) :=
  ⟨rfl, rfl, posted_fraction_policy envW jobPostedW 1 rfl rfl⟩

/-- C4 witness: the claim theorem evaluated on the concrete complete
`Posted` record. -/
theorem rerunnable_iff_downloaded_or_imported_witness :
    processJob envW jobPostedW = .ok rPostedW ∧
    (rPostedW.rerun = true ↔
      ∃ w ∈ rPostedW.writes, w.toStatus = "Downloaded" ∨ w.toStatus = "Imported") :=
  ⟨rfl, rerunnable_iff_downloaded_or_imported envW jobPostedW rPostedW rfl⟩

/-- C5 witness: the claim theorem evaluated on a concrete `Completed`
record and a concrete one-record `Error` table iterated three passes. -/
theorem unmatched_status_and_error_frozen_witness :
    processJob envW jobCompletedW =
      .ok ⟨[], false, [.unmatchedStatus jobCompletedW.statusName]⟩ ∧
    (∀ j ∈ runPasses envW [jobErrW] 3, j.id = 5 → j ∈ [jobErrW] ∧ j.statusName = "Error") :=
  ⟨(unmatched_status_and_error_frozen envW).1 jobCompletedW (by decide) (by decide)
      (by decide) (by decide),
    fun j hj hid =>
      (unmatched_status_and_error_frozen envW).2 [jobErrW] 5 3 (by decide) j hj hid⟩

/-- C6 witness: the amended-claim theorem evaluated on a concrete batch
in which the submit call fails with a transport error and the
staging-import procedure fails with a SQL error. -/
theorem batch_recovers_caught_failures_witness :
    (∃ rs : List JobResult,
      List.Forall₂ (fun j rj => processJob envFail j = .ok rj) [jobQueuedW, jobDownloadedW] rs ∧
      processAllJobs envFail [jobQueuedW, jobDownloadedW] =
        .ok ⟨(rs.map JobResult.writes).join, rs.any JobResult.rerun,
          (rs.map JobResult.errLogs).join⟩) ∧
    (∀ j ∈ [jobQueuedW, jobDownloadedW], CollabFail envFail j →
      ∃ rj, processJob envFail j = .ok rj ∧
        ∃ d, rj.writes = [⟨j.id, "Error", .str d⟩] ∧ rj.rerun = false) :=
  batch_recovers_caught_failures envFail [jobQueuedW, jobDownloadedW]
    (by
      intro j hj
      rcases List.mem_cons.mp hj with rfl | hj'
      · exact ⟨⟨[⟨8, "Error", .str postFailureDetail⟩], false, []⟩, rfl⟩
      rcases List.mem_cons.mp hj' with rfl | hj''
      · exact ⟨⟨[⟨9, "Error", .str importFailureDetail⟩], false,
          [.importError "Accounts" 9]⟩, rfl⟩
      · cases hj'')

/-- C7 witness: the claim theorem evaluated on a concrete `Queued` record
in the working environment. -/
theorem queued_submit_policy_witness :
    jobQueuedW.statusName = "Queued" ∧
    (∀ v, postAddeparJob (envW.postOutcome jobQueuedW) "logs/" envW.writeFileOk envW.now
        = .ok (some v) →
      processJob envW jobQueuedW = .ok ⟨[⟨jobQueuedW.id, "Posted", v⟩], false, []⟩) ∧
    processJob envW jobQueuedW = .ok ⟨[⟨8, "Posted", .str "42"⟩], false, []⟩ :=
  ⟨rfl, (queued_submit_policy envW jobQueuedW rfl).2.2.2.2.2.2,
    (queued_submit_policy envW jobQueuedW rfl).2.2.2.2.2.2 (.str "42") rfl⟩

/-- C8 witness: the amended-claim theorem evaluated at concrete names,
dates and timestamps. -/
theorem artifact_path_construction_witness :
    postResponseSavePathFull "Accounts" "2023-01-18" "20230118-120000"
      = "logs/AddeparPostResponse_" ++ "20230118-120000" ++ ".txt" ∧
    ("20230118-120000" : String) = "20230118-120000" ∧
    dataSavePathFull "Accounts" "2023-01-18" "20230118-120000"
      = "data/" ++ "Accounts" ++ "_" ++ "2023-01-18" ++ ".json" ∧
    ("Accounts" : String) = "Accounts" ∧
    ("2023-01-18" : String) = "2023-01-18" :=
  ⟨artifact_path_construction.1 "Accounts" "2023-01-18" "20230118-120000",
    artifact_path_construction.2.1 "Accounts" "Holdings" "2023-01-18" "2024-01-01"
      "20230118-120000" "20230118-120000" (by decide),
    artifact_path_construction.2.2.1 "Accounts" "2023-01-18" "20230118-120000",
    artifact_path_construction.2.2.2.1 "Accounts" "Accounts" "2023-01-18"
      "20230118-120000" "20240101-000000" (by decide),
    artifact_path_construction.2.2.2.2 "Accounts" "2023-01-18" "2023-01-18"
      "20230118-120000" "20240101-000000" (by decide)⟩

end AddeparRecon
